import Mathlib

/-!
Verification development for the generic CSV dataset cleaning pipeline.

Shallow embedding of the Python sources:
- src/config.py            (DatasetConfig: dialect detection, quality scan)
- src/generic_cleaner.py   (GenericDatasetCleaner: per-field normalization,
                            row cleaning, full-file rewrite with statistics)
- src/generic_validator.py (GenericDatasetValidator: data-integrity check)
- src/generic_pipeline.py  (GenericDataPipeline: stage sequencing)

Modelling conventions:
- Python strings are Lean String / List Char; file bytes are List Nat.
- Text-mode file reading is modelled eagerly: the whole byte content is
  decoded at once (with universal-newline translation assumed already
  applied), then line iteration and character reads slice the decoded text.
- Library calls from Python are embedded as explicit Lean functions; where
  the library behavior covers an unbounded repertoire (Unicode NFD, the
  full HTML named-entity table), the embedding restricts to a finite table
  covering the characters this development exercises and is the identity
  elsewhere; each such restriction is noted at the definition.
- Fallible Python code is embedded with Except / Option; per-row exception
  paths that are unreachable in the embedding are noted where they occur.
-/

namespace CsvClean

/-- Cleaning statistics accumulated by GenericDatasetCleaner
(the self.stats dictionary initialized in its constructor). -/
structure Stats where
  total_rows : Nat
  cleaned_rows : Nat
  skipped_rows : Nat
  character_replacements : Nat
  html_entities_fixed : Nat
  whitespace_normalized : Nat
deriving Repr, DecidableEq

/-- The zero-initialized statistics dictionary built in the constructor of
GenericDatasetCleaner. -/
def initStats : Stats :=
  { total_rows := 0, cleaned_rows := 0, skipped_rows := 0,
    character_replacements := 0, html_entities_fixed := 0,
    whitespace_normalized := 0 }

/-- Pointwise order on statistics: every counter of the first is at most
the corresponding counter of the second. -/
def statsLe (s t : Stats) : Prop :=
  s.total_rows ≤ t.total_rows ∧ s.cleaned_rows ≤ t.cleaned_rows ∧
  s.skipped_rows ≤ t.skipped_rows ∧
  s.character_replacements ≤ t.character_replacements ∧
  s.html_entities_fixed ≤ t.html_entities_fixed ∧
  s.whitespace_normalized ≤ t.whitespace_normalized

/-- The dialect fields of the configuration dictionary consumed by
GenericDatasetCleaner (delimiter and quotechar; the encoding only selects
byte decoding, which happens before the character-level model). -/
structure CleanConfig where
  delimiter : Char
  quotechar : Char
deriving Repr, DecidableEq

/-- Characters matched by the regex class backslash-s in Python re (with
Unicode semantics) restricted to the repertoire reachable here: ASCII
whitespace plus the no-break space, which Python also treats as
whitespace.  Python str.strip with no argument strips the same set. -/
def isPySpace (c : Char) : Bool :=
  c = ' ' ∨ c = '\t' ∨ c = '\n' ∨ c = '\u000d' ∨ c = '\u000b' ∨
    c = '\u000c' ∨ c = ' '

/-- One step of the regex substitution replacing every whitespace run by a
single space: re.sub applied in normalize_whitespace.  The fuel argument
only forces structural termination; it starts at the list length, which
each step consumes at least one element of. -/
def collapseWsAux : Nat → List Char → List Char
  | 0, l => l
  | _ + 1, [] => []
  | fuel + 1, c :: rest =>
    if isPySpace c then ' ' :: collapseWsAux fuel (rest.dropWhile isPySpace)
    else c :: collapseWsAux fuel rest

/-- Replace every whitespace run by a single space, as the regex
substitution in normalize_whitespace does. -/
def collapseWs (l : List Char) : List Char := collapseWsAux l.length l

/-- Python str.strip with no argument: drop leading and trailing
whitespace. -/
def pyStrip (l : List Char) : List Char :=
  ((l.dropWhile isPySpace).reverse.dropWhile isPySpace).reverse

/-- GenericDatasetCleaner.normalize_whitespace: the empty string returns
unchanged at once; otherwise whitespace runs collapse to single spaces,
the ends are stripped, and the whitespace_normalized counter increments
by exactly one. -/
def normalize_whitespace (text : String) (s : Stats) : String × Stats :=
  if text = "" then (text, s)
  else
    (String.mk (pyStrip (collapseWs text.toList)),
     { s with whitespace_normalized := s.whitespace_normalized + 1 })

/-- Candidate delimiters probed by DatasetConfig.detect_delimiter, in the
fixed preference order of config.py. -/
def delimiters : List Char := [';', ',', '\t', '|']

/-- The first line of the decoded file content as returned by readline;
the trailing newline is dropped, which no candidate counting below can
observe because the newline is not a candidate. -/
def firstLine (content : List Char) : List Char :=
  content.takeWhile (fun c => ¬ (c = '\n'))

/-- DatasetConfig.detect_delimiter: count each candidate in the first line
and take the key with the maximal count; Python max over the dict keys
returns the first key attaining the maximum, in insertion order. -/
def detect_delimiter (content : List Char) : Char :=
  let fl := firstLine content
  delimiters.foldl (fun best d => if fl.count best < fl.count d then d else best) ';'

/-- DatasetConfig.detect_quotechar: count double and single quotes in the
first 10000 characters; the double quote is returned only when it strictly
outnumbers the single quote. -/
def detect_quotechar (content : List Char) : Char :=
  let c := content.take 10000
  if c.count '\'' < c.count '"' then '"' else '\''

/-- Python substring membership, the operator in on strings: does sub
occur contiguously in the first argument. -/
def containsSub : List Char → List Char → Bool
  | [], sub => sub.isEmpty
  | c :: rest, sub => sub.isPrefixOf (c :: rest) || containsSub rest sub

/-- Python str.replace: replace every non-overlapping occurrence of old by
new, scanning left to right.  The fuel starts at the input length, which
each step consumes at least one element of whenever old is nonempty (the
only way the table below uses it). -/
def pyReplaceAux (old new : List Char) : Nat → List Char → List Char
  | 0, l => l
  | _ + 1, [] => []
  | fuel + 1, c :: rest =>
    if old.isPrefixOf (c :: rest) then
      new ++ pyReplaceAux old new fuel ((c :: rest).drop old.length)
    else c :: pyReplaceAux old new fuel rest

/-- Python str.replace old by new over the whole string. -/
def pyReplace (l old new : List Char) : List Char := pyReplaceAux old new l.length l

/-- Canonical decomposition of one character, modelling the library call
unicodedata.normalize NFD restricted to the precomposed Latin letters this
development exercises (the accented letters of the allow-list in
config.py); every other character is returned unchanged. -/
def nfdChar : Char → List Char
  | 'á' => ['a', '́']
  | 'é' => ['e', '́']
  | 'í' => ['i', '́']
  | 'ó' => ['o', '́']
  | 'ú' => ['u', '́']
  | 'ñ' => ['n', '̃']
  | 'ü' => ['u', '̈']
  | 'Á' => ['A', '́']
  | 'É' => ['E', '́']
  | 'Í' => ['I', '́']
  | 'Ó' => ['O', '́']
  | 'Ú' => ['U', '́']
  | 'Ñ' => ['N', '̃']
  | 'Ü' => ['U', '̈']
  | c => [c]

/-- NFD normalization over a character list. -/
def nfd (l : List Char) : List Char := (l.map nfdChar).flatten

/-- An artifact key of the substitution dict: on the apostrophe lines of
the source the three consecutive apostrophes open a triple-quoted string
that runs to the matching three apostrophes at the start of the next
line, so the parsed dict gains one long key consisting of the remainder
of the first apostrophe line (colon, the quoted-apostrophe value, comma
and comment included) followed by the newline and the indentation of the
next line, mapped to a single apostrophe. -/
def tripleQuoteArtifactKey : List Char :=
  [':', ' ', '"', '\'', '"', ',', ' ', ' ', '#', ' ',
   'A', 'p', 'ó', 's', 't', 'r', 'o', 'f', 'o', ' ',
   'i', 'z', 'q', 'u', 'i', 'e', 'r', 'd', 'o', '\n',
   ' ', ' ', ' ', ' ', ' ', ' ', ' ', ' ', ' ', ' ', ' ', ' ']

/-- The substitution dict of GenericDatasetCleaner as Python parses it
(insertion order, the duplicate double-quote key collapsed to one
entry).  The comments of the source announce curly quotes and a no-break
space, but the keys on those lines are the plain ASCII double quote and
the plain ASCII space, each mapped to itself -- identity replacements
that still increment the character_replacements counter whenever the
character occurs -- plus the triple-quoted artifact key above; only the
dashes, the ellipsis and the registered, copyright and trademark signs
are genuine non-ASCII keys. -/
def char_replacements : List (List Char × List Char) :=
  [(['"'], ['"']),
   (tripleQuoteArtifactKey, ['\'']),
   (['–'], ['-']), (['—'], ['-']),
   ([' '], [' ']),
   (['…'], ['.', '.', '.']),
   (['®'], ['(', 'R', ')']), (['©'], ['(', 'C', ')']),
   (['™'], ['(', 'T', 'M', ')'])]
/-- One iteration of the replacement loop of normalize_unicode: when the
table key occurs in the text, replace it everywhere and increment the
character_replacements counter once. -/
def replaceStepCR (acc : List Char × Stats) (p : List Char × List Char) :
    List Char × Stats :=
  if containsSub acc.1 p.1 then
    (pyReplace acc.1 p.1 p.2,
     { acc.2 with character_replacements := acc.2.character_replacements + 1 })
  else acc

/-- GenericDatasetCleaner.normalize_unicode: the empty string is returned
at once; otherwise the text is NFD-normalized and each substitution-table
entry whose key occurs is replaced everywhere, incrementing the
character_replacements counter once per firing table entry. -/
def normalize_unicode (text : String) (s : Stats) : String × Stats :=
  if text = "" then (text, s)
  else
    let r := char_replacements.foldl replaceStepCR (nfd text.toList, s)
    (String.mk r.1, r.2)

/-- Named HTML entities recognized by the embedding of html.unescape.
The Python library knows the full HTML5 table; the model restricts to the
names exercised here and leaves unknown entities untouched, as the library
also does for unknown names.  Semicolon-less named forms and the
Windows-1252 numeric remapping of the HTML5 spec are not modelled. -/
def htmlNamedEntities : List (List Char × Char) :=
  [("amp".toList, '&'), ("lt".toList, '<'), ("gt".toList, '>'),
   ("quot".toList, '"'), ("apos".toList, '\''), ("nbsp".toList, ' '),
   ("eacute".toList, 'é'), ("aacute".toList, 'á'), ("iacute".toList, 'í'),
   ("oacute".toList, 'ó'), ("uacute".toList, 'ú'), ("ntilde".toList, 'ñ'),
   ("uuml".toList, 'ü'), ("hellip".toList, '…'),
   ("rsquo".toList, '’'), ("lsquo".toList, '‘'),
   ("rdquo".toList, '”'), ("ldquo".toList, '“'),
   ("ndash".toList, '–'), ("mdash".toList, '—'),
   ("copy".toList, '©'), ("reg".toList, '®'),
   ("trade".toList, '™')]

/-- Value of a decimal digit run. -/
def digitsToNat (ds : List Char) : Nat :=
  ds.foldl (fun n c => n * 10 + (c.toNat - 48)) 0

/-- Hexadecimal digit predicate. -/
def isHexDigitChar (c : Char) : Bool :=
  c.isDigit || ('a' ≤ c && c ≤ 'f') || ('A' ≤ c && c ≤ 'F')

/-- Value of one hexadecimal digit. -/
def hexVal (c : Char) : Nat :=
  if c.isDigit then c.toNat - 48
  else if 'a' ≤ c ∧ c ≤ 'f' then c.toNat - 87
  else c.toNat - 55

/-- Value of a hexadecimal digit run. -/
def hexToNat (ds : List Char) : Nat := ds.foldl (fun n c => n * 16 + hexVal c) 0

/-- The character a numeric character reference decodes to: the scalar
value when valid, the replacement character otherwise. -/
def numRefChar (n : Nat) : Char :=
  if n < 0xD800 ∨ (0xE000 ≤ n ∧ n ≤ 0x10FFFF) then Char.ofNat n else '�'

/-- Try to decode one entity body following an ampersand: a numeric
reference in decimal or hexadecimal form, or a known named entity, each
terminated by a semicolon; returns the decoded character and the rest of
the input. -/
def matchEntity (l : List Char) : Option (Char × List Char) :=
  match l with
  | '#' :: 'x' :: r2 =>
    let ds := r2.takeWhile isHexDigitChar
    (match r2.drop ds.length with
     | ';' :: after => if ds = [] then none else some (numRefChar (hexToNat ds), after)
     | _ => none)
  | '#' :: 'X' :: r2 =>
    let ds := r2.takeWhile isHexDigitChar
    (match r2.drop ds.length with
     | ';' :: after => if ds = [] then none else some (numRefChar (hexToNat ds), after)
     | _ => none)
  | '#' :: r =>
    let ds := r.takeWhile Char.isDigit
    (match r.drop ds.length with
     | ';' :: after => if ds = [] then none else some (numRefChar (digitsToNat ds), after)
     | _ => none)
  | _ =>
    let name := l.takeWhile (fun c => c.isAlpha || c.isDigit)
    match l.drop name.length with
    | ';' :: after =>
      (match htmlNamedEntities.lookup name with
       | some ch => some (ch, after)
       | none => none)
    | _ => none

/-- Scanner for the embedding of html.unescape; the fuel starts at the
input length, of which each step consumes at least one element. -/
def htmlUnescapeAux : Nat → List Char → List Char
  | 0, l => l
  | _ + 1, [] => []
  | fuel + 1, c :: rest =>
    if c = '&' then
      match matchEntity rest with
      | some (ch, after) => ch :: htmlUnescapeAux fuel after
      | none => c :: htmlUnescapeAux fuel rest
    else c :: htmlUnescapeAux fuel rest

/-- Embedding of html.unescape (see htmlNamedEntities for the modelled
restriction). -/
def htmlUnescape (l : List Char) : List Char := htmlUnescapeAux l.length l

/-- The small fixed numeric-entity repair table of clean_html_entities. -/
def html_fixes : List (List Char × List Char) :=
  [("&#269;".toList, ['c']), ("&#305;".toList, ['i']),
   ("&#345;".toList, ['r']), ("&#8217;".toList, ['\'']),
   ("&#8230;".toList, ['.', '.', '.'])]

/-- Length of a br-family tag match at the head of the input, for the
regex replacing br tags by a space: an opening angle bracket, the letters
b and r, optional whitespace, an optional slash, and the closing angle
bracket. -/
def matchBrLen (l : List Char) : Option Nat :=
  match l with
  | '<' :: 'b' :: 'r' :: rest =>
    let wsLen := (rest.takeWhile isPySpace).length
    (match rest.drop wsLen with
     | '/' :: '>' :: _ => some (3 + wsLen + 2)
     | '>' :: _ => some (3 + wsLen + 1)
     | _ => none)
  | _ => none

/-- Scanner for the br-tag substitution; every match is replaced by one
space. -/
def subBrAux : Nat → List Char → List Char
  | 0, l => l
  | _ + 1, [] => []
  | fuel + 1, c :: rest =>
    match matchBrLen (c :: rest) with
    | some n => ' ' :: subBrAux fuel ((c :: rest).drop n)
    | none => c :: subBrAux fuel rest

/-- The regex substitution replacing br tags by a space. -/
def subBr (l : List Char) : List Char := subBrAux l.length l

/-- Scanner for the regex removing every remaining tag: an opening angle
bracket, one or more characters none of which is a closing angle bracket,
and the closing angle bracket; matches are deleted. -/
def stripTagsAux : Nat → List Char → List Char
  | 0, l => l
  | _ + 1, [] => []
  | fuel + 1, c :: rest =>
    if c = '<' then
      let mid := rest.takeWhile (fun x => ¬ (x = '>'))
      match rest.drop mid.length with
      | '>' :: after =>
        if mid = [] then c :: stripTagsAux fuel rest
        else stripTagsAux fuel after
      | _ => c :: stripTagsAux fuel rest
    else c :: stripTagsAux fuel rest

/-- The regex substitution deleting remaining tags. -/
def stripTags (l : List Char) : List Char := stripTagsAux l.length l

/-- One iteration of the repair loop of clean_html_entities: when the
table key occurs in the text, replace it everywhere and increment the
html_entities_fixed counter once. -/
def replaceStepHE (acc : List Char × Stats) (p : List Char × List Char) :
    List Char × Stats :=
  if containsSub acc.1 p.1 then
    (pyReplace acc.1 p.1 p.2,
     { acc.2 with html_entities_fixed := acc.2.html_entities_fixed + 1 })
  else acc

/-- GenericDatasetCleaner.clean_html_entities: the empty string is
returned at once; otherwise entities are unescaped, the fixed repair
table is applied (each firing entry incrementing html_entities_fixed
once), br tags become a space, and remaining tags are removed. -/
def clean_html_entities (text : String) (s : Stats) : String × Stats :=
  if text = "" then (text, s)
  else
    let r := html_fixes.foldl replaceStepHE (htmlUnescape text.toList, s)
    (String.mk (stripTags (subBr r.1)), r.2)

/-- Parser states of the csv module reader (non-strict dialect with
doubled quotes, no escape character, no initial-space skipping). -/
inductive PState
  | startField
  | inField
  | inQuoted
  | quoteInQuoted
deriving Repr, DecidableEq

/-- The csv reader state machine over one record with no newline
characters: field accumulates the current field in reverse, acc the
finished fields.  Non-strict mode: a character after a closing quote is
taken literally, and an unterminated quoted field ends at end of input. -/
def parseAux (delim quote : Char) :
    List Char → PState → List Char → List String → List String
  | [], _, field, acc => acc ++ [String.mk field.reverse]
  | c :: rest, st, field, acc =>
    match st with
    | PState.startField =>
      if c = quote then parseAux delim quote rest PState.inQuoted field acc
      else if c = delim then
        parseAux delim quote rest PState.startField [] (acc ++ [String.mk field.reverse])
      else parseAux delim quote rest PState.inField (c :: field) acc
    | PState.inField =>
      if c = delim then
        parseAux delim quote rest PState.startField [] (acc ++ [String.mk field.reverse])
      else parseAux delim quote rest PState.inField (c :: field) acc
    | PState.inQuoted =>
      if c = quote then parseAux delim quote rest PState.quoteInQuoted field acc
      else parseAux delim quote rest PState.inQuoted (c :: field) acc
    | PState.quoteInQuoted =>
      if c = quote then parseAux delim quote rest PState.inQuoted (c :: field) acc
      else if c = delim then
        parseAux delim quote rest PState.startField [] (acc ++ [String.mk field.reverse])
      else parseAux delim quote rest PState.inField (c :: field) acc

/-- One-record csv.reader parse, as clean_row uses over a StringIO holding
a single line. -/
def pyCsvParse (delim quote : Char) (l : List Char) : List String :=
  parseAux delim quote l PState.startField [] []

/-- Python str.split on a one-character separator, keeping empty pieces. -/
def pySplitChar (sep : Char) : List Char → List (List Char)
  | [] => [[]]
  | c :: rest =>
    if c = sep then [] :: pySplitChar sep rest
    else
      match pySplitChar sep rest with
      | [] => [[c]]
      | p :: ps => (c :: p) :: ps

/-- Join pieces with a one-character separator (the inverse of the split
above, and the unquoted part of the csv writer). -/
def joinSep (sep : Char) : List (List Char) → List Char
  | [] => []
  | [p] => p
  | p :: q :: ps => p ++ sep :: joinSep sep (q :: ps)

/-- A field must be quoted under QUOTE_MINIMAL when it contains the
delimiter, the quote character (the csv writer in process_file is built
without a quotechar argument, so it uses the default double quote), or a
line-terminator character. -/
def fieldNeedsQuote (delim : Char) (f : List Char) : Bool :=
  f.contains delim || f.contains '"' || f.contains '\u000d' || f.contains '\n'

/-- Render a quoted field: wrap in double quotes, doubling every double
quote inside. -/
def quoteWrap (f : List Char) : List Char :=
  '"' :: f.foldr (fun c acc => if c = '"' then '"' :: '"' :: acc else c :: acc) ['"']

/-- Render one field under QUOTE_MINIMAL.  The csv writer also quotes an
empty field when it is the only field of the record, so that the record
is not written as a blank line. -/
def writeField (delim : Char) (single : Bool) (f : List Char) : List Char :=
  if fieldNeedsQuote delim f || (single && f.isEmpty) then quoteWrap f else f

/-- One output record of csv.writer with QUOTE_MINIMAL and the default
double quote character, without the record terminator (records are joined
by the caller as output lines). -/
def pyCsvWriteRow (delim : Char) (fields : List String) : String :=
  String.mk (joinSep delim
    (fields.map fun f => writeField delim (fields.length == 1) f.toList))

/-- The fields clean_row extracts from one raw line: csv.reader over a
StringIO of the line, falling back to a naive split when the reader
yields nothing (StopIteration on the empty string).  Other csv.Error
conditions are not modelled, so the parse is total and the fallback fires
only for the empty string; the outer exception path of clean_row (which
would report failure) is unreachable in the embedding. -/
def rowFields (cfg : CleanConfig) (row_data : String) : List String :=
  if row_data = "" then (pySplitChar cfg.delimiter row_data.toList).map String.mk
  else pyCsvParse cfg.delimiter cfg.quotechar row_data.toList

/-- The per-field loop of clean_row: normalize Unicode, clean HTML
entities, normalize whitespace, in that order, threading statistics. -/
def clean_fields : List String → Stats → List String × Stats
  | [], s => ([], s)
  | f :: rest, s =>
    let r1 := normalize_unicode f s
    let r2 := clean_html_entities r1.1 r1.2
    let r3 := normalize_whitespace r2.1 r2.2
    let rr := clean_fields rest r3.2
    (r3.1 :: rr.1, rr.2)

/-- GenericDatasetCleaner.clean_row: parse the line into fields and clean
each.  The success flag is true whenever no exception escapes, which in
the embedding is always (see rowFields). -/
def clean_row (cfg : CleanConfig) (row_data : String) (s : Stats) :
    (List String × Bool) × Stats :=
  let r := clean_fields (rowFields cfg row_data) s
  ((r.1, true), r.2)

/-- The per-field pipeline applied to one field, string component only
(the statistics threading is independent of the strings produced; see the
independence lemmas below). -/
def clean_field_str (f : String) : String :=
  (normalize_whitespace
    (clean_html_entities (normalize_unicode f initStats).1 initStats).1
    initStats).1

/-- Python line.rstrip with newline and carriage-return characters, as
process_file applies to every raw line. -/
def pyRstripNl (line : String) : String :=
  String.mk (line.toList.reverse.dropWhile (fun c => c = '\n' ∨ c = '\u000d')).reverse

/-- A line that Python line.strip() makes empty, skipped by
process_file. -/
def isBlankLine (line : String) : Bool := (pyStrip line.toList).isEmpty

/-- One data-line iteration of process_file (line numbers greater than
one): count the line, strip its terminator, skip it when blank, otherwise
clean it and either write the cleaned record or count the line as
skipped. -/
def data_step (cfg : CleanConfig) (acc : List String × Stats) (rawLine : String) :
    List String × Stats :=
  let s1 := { acc.2 with total_rows := acc.2.total_rows + 1 }
  let line := pyRstripNl rawLine
  if isBlankLine line then
    (acc.1, { s1 with skipped_rows := s1.skipped_rows + 1 })
  else
    let r := clean_row cfg line s1
    if r.1.2 && decide (0 < r.1.1.length) then
      (acc.1 ++ [pyCsvWriteRow cfg.delimiter r.1.1],
       { r.2 with cleaned_rows := r.2.cleaned_rows + 1 })
    else
      (acc.1, { r.2 with skipped_rows := r.2.skipped_rows + 1 })

/-- GenericDatasetCleaner.process_file over the source lines (as text-mode
iteration yields them, terminators already handled by the rstrip in each
step), started from the given statistics: the first line is counted,
split on the raw delimiter and written as the header (incrementing
cleaned_rows), every further line goes through data_step.  The output is
the list of written records. -/
def process_file_from (cfg : CleanConfig) (lines : List String) (s0 : Stats) :
    List String × Stats :=
  match lines with
  | [] => ([], s0)
  | h :: t =>
    let s1 := { s0 with total_rows := s0.total_rows + 1 }
    let hline := pyRstripNl h
    let out0 := [pyCsvWriteRow cfg.delimiter
      ((pySplitChar cfg.delimiter hline.toList).map String.mk)]
    t.foldl (data_step cfg) (out0, { s1 with cleaned_rows := s1.cleaned_rows + 1 })

/-- process_file as called on a fresh cleaner: statistics start at the
zero-initialized dictionary. -/
def process_file (cfg : CleanConfig) (lines : List String) : List String × Stats :=
  process_file_from cfg lines initStats

/-- Whether a data line takes the skipped (failure) branch of
process_file for a reason other than being blank: the success flag false
or an empty field list. -/
def row_parse_failed (cfg : CleanConfig) (line : String) : Bool :=
  let r := clean_row cfg (pyRstripNl line) initStats
  !(r.1.2 && decide (0 < r.1.1.length))

/-- Is a byte a UTF-8 continuation byte. -/
def contOk (b : Nat) : Bool := 0x80 ≤ b && b ≤ 0xBF

/-- Strict UTF-8 decoding of a byte sequence, as Python text-mode reading
with the utf-8 codec performs: rejects overlong forms, surrogates and
out-of-range sequences.  The fuel starts at the byte count, of which each
step consumes at least one. -/
def utf8DecodeAux : Nat → List Nat → Option (List Char)
  | 0, [] => some []
  | 0, _ :: _ => none
  | _ + 1, [] => some []
  | fuel + 1, b :: rest =>
    if b ≤ 0x7F then
      (utf8DecodeAux fuel rest).map (Char.ofNat b :: ·)
    else if 0xC2 ≤ b && b ≤ 0xDF then
      match rest with
      | b1 :: r =>
        if contOk b1 then
          (utf8DecodeAux fuel r).map
            (Char.ofNat ((b - 0xC0) * 64 + (b1 - 0x80)) :: ·)
        else none
      | [] => none
    else if 0xE0 ≤ b && b ≤ 0xEF then
      match rest with
      | b1 :: b2 :: r =>
        let lo1 : Nat := if b = 0xE0 then 0xA0 else 0x80
        let hi1 : Nat := if b = 0xED then 0x9F else 0xBF
        if lo1 ≤ b1 && b1 ≤ hi1 && contOk b2 then
          (utf8DecodeAux fuel r).map
            (Char.ofNat ((b - 0xE0) * 4096 + (b1 - 0x80) * 64 + (b2 - 0x80)) :: ·)
        else none
      | _ => none
    else if 0xF0 ≤ b && b ≤ 0xF4 then
      match rest with
      | b1 :: b2 :: b3 :: r =>
        let lo1 : Nat := if b = 0xF0 then 0x90 else 0x80
        let hi1 : Nat := if b = 0xF4 then 0x8F else 0xBF
        if lo1 ≤ b1 && b1 ≤ hi1 && contOk b2 && contOk b3 then
          (utf8DecodeAux fuel r).map
            (Char.ofNat ((b - 0xF0) * 262144 + (b1 - 0x80) * 4096 +
              (b2 - 0x80) * 64 + (b3 - 0x80)) :: ·)
        else none
      | _ => none
    else none

/-- Strict UTF-8 decoding of the whole byte content. -/
def utf8Decode (bs : List Nat) : Option (List Char) := utf8DecodeAux bs.length bs

/-- Latin-1 decoding: every byte maps directly to the code point of the
same value, so decoding never fails. -/
def latin1Decode (bs : List Nat) : Option (List Char) :=
  some (bs.map Char.ofNat)

/-- The bytes 0x81, 0x8D, 0x8F, 0x90 and 0x9D are undefined in cp1252 and
make strict decoding fail; the other remapped bytes of the 0x80 to 0x9F
range decode to their Windows-1252 characters, modelled here only as far
as decodability goes (the exact remapped character values are irrelevant
to every property below, which only inspects decoding success, so the
map is the identity on the code-point value outside the undefined set). -/
def cp1252Decode (bs : List Nat) : Option (List Char) :=
  if bs.any (fun b => b = 0x81 || b = 0x8D || b = 0x8F || b = 0x90 || b = 0x9D)
  then none
  else some (bs.map Char.ofNat)

/-- The candidate encodings of DatasetConfig.detect_encoding, in order. -/
def encodingCandidates : List String := ["utf-8", "latin-1", "iso-8859-1", "cp1252"]

/-- Decoding with a named candidate encoding (iso-8859-1 behaves as
latin-1). -/
def pyDecode (enc : String) (bs : List Nat) : Option (List Char) :=
  if enc = "utf-8" then utf8Decode bs
  else if enc = "cp1252" then cp1252Decode bs
  else latin1Decode bs

/-- DatasetConfig.detect_encoding: try the candidates in order on the
first kilobyte of the file (under the eager-decoding model the read
succeeds exactly when the content decodes) and return the first that
decodes; fall back to utf-8 when none does. -/
def detect_encoding (bs : List Nat) : String :=
  match encodingCandidates.find? (fun e => (pyDecode e bs).isSome) with
  | some e => e
  | none => "utf-8"

/-- Python text-mode line iteration: lines keep their terminating newline
except possibly the last. -/
def pyLinesAux : List Char → List Char → List (List Char)
  | [], acc => if acc.isEmpty then [] else [acc.reverse]
  | c :: rest, acc =>
    if c = '\n' then (acc.reverse ++ ['\n']) :: pyLinesAux rest []
    else pyLinesAux rest (c :: acc)

/-- The lines of decoded file content, as iterating the file yields
them. -/
def pyLines (content : List Char) : List (List Char) := pyLinesAux content []

/-- Record splitting of csv.reader over whole file content: a newline
ends the record unless the parser state is inside a quoted field, in
which case the newline becomes part of the field.  pstep is the state
transition of the reader used consistently with parseAux. -/
def pstep (delim quote : Char) (st : PState) (c : Char) : PState :=
  match st with
  | PState.startField =>
    if c = quote then PState.inQuoted
    else if c = delim then PState.startField
    else PState.inField
  | PState.inField => if c = delim then PState.startField else PState.inField
  | PState.inQuoted => if c = quote then PState.quoteInQuoted else PState.inQuoted
  | PState.quoteInQuoted =>
    if c = quote then PState.inQuoted
    else if c = delim then PState.startField
    else PState.inField

/-- Split file content into csv records (reverse-accumulating the current
record); a newline inside a quoted field stays inside the record. -/
def csvSplitAux (delim quote : Char) :
    List Char → PState → List Char → List (List Char)
  | [], _, acc => if acc.isEmpty then [] else [acc.reverse]
  | c :: rest, st, acc =>
    if c = '\n' ∧ ¬ (st = PState.inQuoted) then
      acc.reverse :: csvSplitAux delim quote rest PState.startField []
    else csvSplitAux delim quote rest (pstep delim quote st c) (c :: acc)

/-- The csv records of file content, each still unparsed. -/
def csvSplitRecords (delim quote : Char) (content : List Char) : List (List Char) :=
  csvSplitAux delim quote content PState.startField []

/-- The parsed csv records of file content, as iterating csv.reader over
the open file yields them. -/
def csvRecords (delim quote : Char) (content : List Char) : List (List String) :=
  (csvSplitRecords delim quote content).map (pyCsvParse delim quote)

/-- The accented-Latin allow-list of config.py: non-ASCII characters
outside this set count as special characters. -/
def allowedAccents : List Char :=
  ['á', 'é', 'í', 'ó', 'ú', 'ñ', 'ü', 'Á', 'É', 'Í', 'Ó', 'Ú', 'Ñ', 'Ü']

/-- The per-row field scan of analyze_data_quality: walking the fields in
order, a field containing both an ampersand and a semicolon counts one
HTML-entity hit and stops the walk (the Python break leaves the field
loop); otherwise a field containing a character above 127 outside the
allow-list counts one special-character hit and the walk continues. -/
def rowEntityScan : List String → Nat × Nat
  | [] => (0, 0)
  | f :: rest =>
    if f.toList.contains '&' && f.toList.contains ';' then (1, 0)
    else
      let hit : Nat :=
        if f.toList.any (fun c => 127 < c.toNat && !(allowedAccents.contains c))
        then 1 else 0
      let r := rowEntityScan rest
      (r.1, hit + r.2)

/-- The quality-issue tallies of DatasetConfig.analyze_data_quality.  The
encoding_issues and unbalanced_quotes entries are initialized but never
incremented by the code. -/
structure QualityIssues where
  encoding_issues : Nat
  separator_inconsistencies : Nat
  unbalanced_quotes : Nat
  empty_fields : Nat
  html_entities : Nat
  special_chars : Nat
deriving Repr, DecidableEq

/-- Total of all quality-issue tallies. -/
def QualityIssues.total (q : QualityIssues) : Nat :=
  q.encoding_issues + q.separator_inconsistencies + q.unbalanced_quotes +
    q.empty_fields + q.html_entities + q.special_chars

/-- DatasetConfig.analyze_data_quality over the first 1000 data records:
tally rows whose field count differs from the header, whitespace-only
fields, and the per-row entity and special-character hits of
rowEntityScan. -/
def analyze_data_quality (expectedCols : Nat) (dataRows : List (List String)) :
    QualityIssues :=
  (dataRows.take 1000).foldl
    (fun q row =>
      let sep := if row.length ≠ expectedCols then 1 else 0
      let emp := (row.filter (fun f => (pyStrip f.toList).isEmpty)).length
      let r := rowEntityScan row
      { q with
        separator_inconsistencies := q.separator_inconsistencies + sep,
        empty_fields := q.empty_fields + emp,
        html_entities := q.html_entities + r.1,
        special_chars := q.special_chars + r.2 })
    { encoding_issues := 0, separator_inconsistencies := 0,
      unbalanced_quotes := 0, empty_fields := 0, html_entities := 0,
      special_chars := 0 }

/-- The failure modes of the detection stage: the file cannot be opened
(left to the filesystem, outside the byte-level model), a decode error
while reading, or StopIteration from the csv reader of an empty file. -/
inductive PyErr
  | ioError
  | decodeError
  | stopIteration
deriving Repr, DecidableEq

/-- The configuration record DatasetConfig.get_config returns. -/
structure DatasetConfigR where
  delimiter : Char
  quotechar : Char
  encoding : String
  columns : Nat
  rows : Nat
  quality_issues : QualityIssues
  total_issues : Nat
  needs_cleaning : Bool
deriving Repr, DecidableEq

deriving instance DecidableEq for Except

/-- DatasetConfig.get_config over the byte content of the file.  Every
sub-step after encoding detection opens the file hardcoding utf-8, so a
non-UTF-8 file raises a decode error in detect_delimiter regardless of
the candidate list; an empty file reaches detect_column_count, whose
next() on the csv reader raises StopIteration. -/
def get_config (bs : List Nat) : Except PyErr DatasetConfigR :=
  match utf8Decode bs with
  | none => Except.error PyErr.decodeError
  | some content =>
    let delimiter := detect_delimiter content
    let quotechar := detect_quotechar content
    let encoding := detect_encoding bs
    match csvRecords delimiter quotechar content with
    | [] => Except.error PyErr.stopIteration
    | header :: dataRows =>
      let columns := header.length
      let rows := (pyLines content).length - 1
      let quality := analyze_data_quality columns dataRows
      Except.ok
        { delimiter := delimiter, quotechar := quotechar,
          encoding := encoding, columns := columns, rows := rows,
          quality_issues := quality, total_issues := quality.total,
          needs_cleaning := decide (0 < quality.total) }

/-- The integrity sub-result of GenericDatasetValidator: original data
rows (line count minus one, an integer since the Python subtraction can
reach minus one on an empty file), cleaned data rows, their absolute
difference and the preservation flag. -/
structure IntegrityResult where
  original_rows : Int
  cleaned_rows : Int
  row_difference : Int
  data_preserved : Bool
deriving Repr, DecidableEq

/-- GenericDatasetValidator.validate_data_integrity: count original lines
minus one, count cleaned csv records after the header (zero when the
reader raises StopIteration on an empty cleaned file, the exception being
caught with the counter still zero), take the absolute difference and
tolerate a difference of at most five. -/
def validate_data_integrity (cfg : CleanConfig)
    (origContent cleanedContent : List Char) : IntegrityResult :=
  let original : Int := ((pyLines origContent).length : Int) - 1
  let cleaned : Int :=
    match csvSplitRecords cfg.delimiter cfg.quotechar cleanedContent with
    | [] => 0
    | _ :: dataRecs => (dataRecs.length : Int)
  let diff : Int := (original - cleaned).natAbs
  { original_rows := original, cleaned_rows := cleaned,
    row_difference := diff, data_preserved := decide (diff ≤ 5) }

/-- The output-directory files the pipeline stages touch, as observable
state of one run. -/
structure PipelineFS where
  cleaned_exists : Bool
  analysis_report : Bool
  cleaning_report : Bool
  validation_report : Bool
deriving Repr, DecidableEq

/-- GenericDataPipeline.clean_dataset: when the configuration reports no
cleaning needed and no force flag is given, the stage logs and returns
success without touching any file; otherwise the cleaner runs (total in
the embedding) and writes the cleaned file and the cleaning report. -/
def clean_dataset (cfg : DatasetConfigR) (force : Bool) (fs : PipelineFS) :
    Bool × PipelineFS :=
  if ¬ cfg.needs_cleaning ∧ ¬ force then (true, fs)
  else (true, { fs with cleaned_exists := true, cleaning_report := true })

/-- GenericDataPipeline.validate_dataset: when the fixed-name cleaned file
does not exist the stage logs, runs no check, writes no report and
returns success; otherwise the validator runs and the validation report
is written.  The third component records whether the validation checks
ran. -/
def validate_dataset (fs : PipelineFS) : Bool × PipelineFS × Bool :=
  if ¬ fs.cleaned_exists then (true, fs, false)
  else (true, { fs with validation_report := true }, true)

/-- GenericDataPipeline.execute: detect, analyze, clean, validate, each
stage terminal on failure.  The analyzer performs read-only reporting and
cannot fail once the content decodes (detection already succeeded), so it
is modelled as writing its report and succeeding. -/
def pipeline_execute (bs : List Nat) (force : Bool) (fs : PipelineFS) :
    Bool × PipelineFS :=
  match get_config bs with
  | Except.error _ => (false, fs)
  | Except.ok cfg =>
    let fs1 := { fs with analysis_report := true }
    let r2 := clean_dataset cfg force fs1
    if ¬ r2.1 then (false, r2.2)
    else
      let r3 := validate_dataset r2.2
      (r3.1, r3.2.1)

/-- Whether detection succeeds with a configuration not requiring
cleaning (decidable form used as a hypothesis of the C10 theorem). -/
def config_ok_no_cleaning (bs : List Nat) : Bool :=
  match get_config bs with
  | Except.ok c => ! c.needs_cleaning
  | Except.error _ => false

/-! Frame and independence lemmas about the statistics threading of the
per-field cleaning pipeline. -/

theorem statsLe_refl (s : Stats) : statsLe s s := by
  unfold statsLe
  omega

theorem statsLe_trans {s t u : Stats} (h1 : statsLe s t) (h2 : statsLe t u) :
    statsLe s u := by
  unfold statsLe at h1 h2 ⊢
  omega

/-- The statistics effect shared by all per-field cleaning operations: the
three row counters are untouched and no counter decreases. -/
def cleanFrame (s t : Stats) : Prop :=
  t.total_rows = s.total_rows ∧ t.cleaned_rows = s.cleaned_rows ∧
  t.skipped_rows = s.skipped_rows ∧ statsLe s t

theorem cleanFrame_refl (s : Stats) : cleanFrame s s :=
  ⟨rfl, rfl, rfl, statsLe_refl s⟩

theorem cleanFrame_trans {s t u : Stats} (h1 : cleanFrame s t)
    (h2 : cleanFrame t u) : cleanFrame s u := by
  unfold cleanFrame statsLe at h1 h2 ⊢
  omega

theorem foldCR_fst (table : List (List Char × List Char)) :
    ∀ (x : List Char) (s s2 : Stats),
    (table.foldl replaceStepCR (x, s)).1 = (table.foldl replaceStepCR (x, s2)).1 := by
  induction table with
  | nil => intro x s s2; rfl
  | cons p tl ih =>
    intro x s s2
    simp only [List.foldl_cons, replaceStepCR]
    by_cases h : containsSub x p.1 = true
    · simp only [h, if_true]
      exact ih _ _ _
    · simp only [h, if_false]
      exact ih _ _ _

theorem foldCR_frame (table : List (List Char × List Char)) :
    ∀ (x : List Char) (s : Stats),
    cleanFrame s (table.foldl replaceStepCR (x, s)).2 ∧
    (table.foldl replaceStepCR (x, s)).2.html_entities_fixed = s.html_entities_fixed ∧
    (table.foldl replaceStepCR (x, s)).2.whitespace_normalized = s.whitespace_normalized := by
  induction table with
  | nil => intro x s; exact ⟨cleanFrame_refl s, rfl, rfl⟩
  | cons p tl ih =>
    intro x s
    simp only [List.foldl_cons, replaceStepCR]
    by_cases h : containsSub x p.1 = true
    · simp only [h, if_true]
      have h2 := ih (pyReplace x p.1 p.2)
        { s with character_replacements := s.character_replacements + 1 }
      unfold cleanFrame statsLe at h2 ⊢
      simp only at h2
      omega
    · simp only [h, if_false]
      exact ih x s

theorem foldHE_fst (table : List (List Char × List Char)) :
    ∀ (x : List Char) (s s2 : Stats),
    (table.foldl replaceStepHE (x, s)).1 = (table.foldl replaceStepHE (x, s2)).1 := by
  induction table with
  | nil => intro x s s2; rfl
  | cons p tl ih =>
    intro x s s2
    simp only [List.foldl_cons, replaceStepHE]
    by_cases h : containsSub x p.1 = true
    · simp only [h, if_true]
      exact ih _ _ _
    · simp only [h, if_false]
      exact ih _ _ _

theorem foldHE_frame (table : List (List Char × List Char)) :
    ∀ (x : List Char) (s : Stats),
    cleanFrame s (table.foldl replaceStepHE (x, s)).2 ∧
    (table.foldl replaceStepHE (x, s)).2.character_replacements = s.character_replacements ∧
    (table.foldl replaceStepHE (x, s)).2.whitespace_normalized = s.whitespace_normalized := by
  induction table with
  | nil => intro x s; exact ⟨cleanFrame_refl s, rfl, rfl⟩
  | cons p tl ih =>
    intro x s
    simp only [List.foldl_cons, replaceStepHE]
    by_cases h : containsSub x p.1 = true
    · simp only [h, if_true]
      have h2 := ih (pyReplace x p.1 p.2)
        { s with html_entities_fixed := s.html_entities_fixed + 1 }
      unfold cleanFrame statsLe at h2 ⊢
      simp only at h2
      omega
    · simp only [h, if_false]
      exact ih x s

theorem normalize_unicode_frame (t : String) (s : Stats) :
    cleanFrame s (normalize_unicode t s).2 := by
  unfold normalize_unicode
  by_cases h : t = ""
  · simp only [h, if_true]
    exact cleanFrame_refl s
  · simp only [h, if_false]
    exact (foldCR_frame char_replacements (nfd t.toList) s).1

theorem clean_html_entities_frame (t : String) (s : Stats) :
    cleanFrame s (clean_html_entities t s).2 := by
  unfold clean_html_entities
  by_cases h : t = ""
  · simp only [h, if_true]
    exact cleanFrame_refl s
  · simp only [h, if_false]
    exact (foldHE_frame html_fixes (htmlUnescape t.toList) s).1

theorem normalize_whitespace_frame (t : String) (s : Stats) :
    cleanFrame s (normalize_whitespace t s).2 := by
  unfold normalize_whitespace
  by_cases h : t = ""
  · simp only [h, if_true]
    exact cleanFrame_refl s
  · simp only [h, if_false]
    exact ⟨rfl, rfl, rfl, Nat.le_refl _, Nat.le_refl _, Nat.le_refl _,
      Nat.le_refl _, Nat.le_refl _, Nat.le_succ _⟩

theorem normalize_unicode_fst (t : String) (s s2 : Stats) :
    (normalize_unicode t s).1 = (normalize_unicode t s2).1 := by
  unfold normalize_unicode
  by_cases h : t = ""
  · simp only [h, if_true]
  · simp only [h, if_false]
    exact congrArg String.mk (foldCR_fst char_replacements (nfd t.toList) s s2)

theorem clean_html_entities_fst (t : String) (s s2 : Stats) :
    (clean_html_entities t s).1 = (clean_html_entities t s2).1 := by
  unfold clean_html_entities
  by_cases h : t = ""
  · simp only [h, if_true]
  · simp only [h, if_false]
    exact congrArg (fun x => String.mk (stripTags (subBr x)))
      (foldHE_fst html_fixes (htmlUnescape t.toList) s s2)

theorem normalize_whitespace_fst (t : String) (s s2 : Stats) :
    (normalize_whitespace t s).1 = (normalize_whitespace t s2).1 := by
  unfold normalize_whitespace
  by_cases h : t = "" <;> simp only [h, if_true, if_false]

theorem clean_fields_fst (fs : List String) : ∀ s : Stats,
    (clean_fields fs s).1 = fs.map clean_field_str := by
  induction fs with
  | nil => intro s; rfl
  | cons f rest ih =>
    intro s
    simp only [clean_fields, List.map_cons]
    have e1 : (normalize_unicode f s).1 = (normalize_unicode f initStats).1 :=
      normalize_unicode_fst f s initStats
    have e2 : (clean_html_entities (normalize_unicode f s).1
          (normalize_unicode f s).2).1
        = (clean_html_entities (normalize_unicode f initStats).1 initStats).1 := by
      rw [e1]
      exact clean_html_entities_fst _ _ _
    have e3 : (normalize_whitespace
          (clean_html_entities (normalize_unicode f s).1 (normalize_unicode f s).2).1
          (clean_html_entities (normalize_unicode f s).1 (normalize_unicode f s).2).2).1
        = clean_field_str f := by
      unfold clean_field_str
      rw [e2]
      exact normalize_whitespace_fst _ _ _
    exact congrArg₂ List.cons e3 (ih _)

theorem clean_fields_frame (fs : List String) : ∀ s : Stats,
    cleanFrame s (clean_fields fs s).2 := by
  induction fs with
  | nil => intro s; exact cleanFrame_refl s
  | cons f rest ih =>
    intro s
    simp only [clean_fields]
    exact cleanFrame_trans (normalize_unicode_frame f s)
      (cleanFrame_trans (clean_html_entities_frame _ _)
        (cleanFrame_trans (normalize_whitespace_frame _ _) (ih _)))

theorem clean_row_fst (cfg : CleanConfig) (row : String) (s : Stats) :
    (clean_row cfg row s).1 = ((rowFields cfg row).map clean_field_str, true) := by
  unfold clean_row
  simp only
  rw [clean_fields_fst]

theorem clean_row_frame (cfg : CleanConfig) (row : String) (s : Stats) :
    cleanFrame s (clean_row cfg row s).2 := by
  unfold clean_row
  simp only
  exact clean_fields_frame _ _

/-! The csv reader always yields at least one field, so clean_row can
never produce an empty field list; together with the always-true success
flag this makes the skipped branch of process_file reachable only for
blank lines. -/

theorem parseAux_length_lt (delim quote : Char) :
    ∀ (l : List Char) (st : PState) (field : List Char) (acc : List String),
    acc.length < (parseAux delim quote l st field acc).length := by
  intro l
  induction l with
  | nil =>
    intro st field acc
    simp [parseAux]
  | cons c rest ih =>
    intro st field acc
    cases st <;> simp only [parseAux]
    · split
      · exact ih _ _ _
      · split
        · exact Nat.lt_of_le_of_lt (by simp) (ih _ _ _)
        · exact ih _ _ _
    · split
      · exact Nat.lt_of_le_of_lt (by simp) (ih _ _ _)
      · exact ih _ _ _
    · split
      · exact ih _ _ _
      · exact ih _ _ _
    · split
      · exact ih _ _ _
      · split
        · exact Nat.lt_of_le_of_lt (by simp) (ih _ _ _)
        · exact ih _ _ _

theorem pyCsvParse_length_pos (delim quote : Char) (l : List Char) :
    0 < (pyCsvParse delim quote l).length :=
  parseAux_length_lt delim quote l PState.startField [] []

theorem rowFields_length_pos (cfg : CleanConfig) (row : String) :
    0 < (rowFields cfg row).length := by
  unfold rowFields
  split
  · rename_i h
    subst h
    have hdata : ("" : String).toList = [] := rfl
    rw [hdata]
    simp [pySplitChar]
  · exact pyCsvParse_length_pos _ _ _

theorem clean_row_ok (cfg : CleanConfig) (row : String) (s : Stats) :
    (clean_row cfg row s).1.2 = true ∧ 0 < (clean_row cfg row s).1.1.length := by
  rw [clean_row_fst]
  refine ⟨rfl, ?_⟩
  simp only [List.length_map]
  exact rowFields_length_pos cfg row

theorem row_parse_failed_false (cfg : CleanConfig) (l : String) :
    row_parse_failed cfg l = false := by
  unfold row_parse_failed
  obtain ⟨h1, h2⟩ := clean_row_ok cfg (pyRstripNl l) initStats
  simp [h1, h2]

/-! Counting behavior of one data-line iteration and of the fold over all
data lines. -/

theorem data_step_counts (cfg : CleanConfig) (out : List String) (s : Stats)
    (line : String) :
    (data_step cfg (out, s) line).2.total_rows = s.total_rows + 1 ∧
    (data_step cfg (out, s) line).2.cleaned_rows =
      s.cleaned_rows + (if isBlankLine (pyRstripNl line) then 0 else 1) ∧
    (data_step cfg (out, s) line).2.skipped_rows =
      s.skipped_rows + (if isBlankLine (pyRstripNl line) then 1 else 0) := by
  by_cases hb : isBlankLine (pyRstripNl line) = true
  · unfold data_step
    simp [hb]
  · obtain ⟨h1, h2⟩ := clean_row_ok cfg (pyRstripNl line)
      { s with total_rows := s.total_rows + 1 }
    obtain ⟨a, b, c, _⟩ := clean_row_frame cfg (pyRstripNl line)
      { s with total_rows := s.total_rows + 1 }
    unfold data_step
    simp only at a b c
    simp [hb, h1, h2, a, b, c]

theorem data_fold_counts (cfg : CleanConfig) (t : List String) :
    ∀ (out : List String) (s : Stats),
    (t.foldl (data_step cfg) (out, s)).2.total_rows = s.total_rows + t.length ∧
    (t.foldl (data_step cfg) (out, s)).2.cleaned_rows =
      s.cleaned_rows + t.countP (fun l => ! isBlankLine (pyRstripNl l)) ∧
    (t.foldl (data_step cfg) (out, s)).2.skipped_rows =
      s.skipped_rows + t.countP (fun l => isBlankLine (pyRstripNl l)) := by
  induction t with
  | nil => intro out s; simp
  | cons line rest ih =>
    intro out s
    rw [List.foldl_cons]
    obtain ⟨a, b, c⟩ := data_step_counts cfg out s line
    obtain ⟨d, e, f⟩ := ih (data_step cfg (out, s) line).1 (data_step cfg (out, s) line).2
    rw [Prod.mk.eta] at d e f
    simp only [List.countP_cons, List.length_cons]
    by_cases hb : isBlankLine (pyRstripNl line) = true <;>
      simp only [hb] at a b c ⊢ <;> simp at a b c ⊢ <;> omega

/-! Output accumulation of the data fold. -/

theorem data_step_out (cfg : CleanConfig) (out : List String) (s : Stats)
    (line : String) :
    ∃ ext, (data_step cfg (out, s) line).1 = out ++ ext := by
  unfold data_step
  by_cases hb : isBlankLine (pyRstripNl line) = true
  · exact ⟨[], by simp [hb]⟩
  · simp only [hb, Bool.false_eq_true, if_false]
    split
    · exact ⟨_, rfl⟩
    · exact ⟨[], by simp⟩

theorem data_fold_out (cfg : CleanConfig) (t : List String) :
    ∀ (out : List String) (s : Stats),
    ∃ ext, (t.foldl (data_step cfg) (out, s)).1 = out ++ ext := by
  induction t with
  | nil => intro out s; exact ⟨[], by simp⟩
  | cons line rest ih =>
    intro out s
    rw [List.foldl_cons]
    obtain ⟨e1, he1⟩ := data_step_out cfg out s line
    obtain ⟨e2, he2⟩ := ih (data_step cfg (out, s) line).1 (data_step cfg (out, s) line).2
    rw [Prod.mk.eta] at he2
    exact ⟨e1 ++ e2, by rw [he2, he1, List.append_assoc]⟩

/-! Inversion lemmas for the naive split and its join. -/

theorem pySplitChar_ne_nil (sep : Char) (l : List Char) :
    pySplitChar sep l ≠ [] := by
  cases l with
  | nil => simp [pySplitChar]
  | cons c rest =>
    simp only [pySplitChar]
    split
    · simp
    · split <;> simp

theorem joinSep_pySplitChar (sep : Char) : ∀ l : List Char,
    joinSep sep (pySplitChar sep l) = l := by
  intro l
  induction l with
  | nil => rfl
  | cons c rest ih =>
    simp only [pySplitChar]
    by_cases h : c = sep
    · rw [if_pos h]
      cases hps : pySplitChar sep rest with
      | nil => exact absurd hps (pySplitChar_ne_nil sep rest)
      | cons p ps =>
        simp only [joinSep, List.nil_append]
        rw [← hps, ih, h]
    · rw [if_neg h]
      cases hps : pySplitChar sep rest with
      | nil => exact absurd hps (pySplitChar_ne_nil sep rest)
      | cons p ps =>
        cases ps with
        | nil =>
          simp only [joinSep]
          have h2 := ih
          rw [hps] at h2
          simp only [joinSep] at h2
          rw [h2]
        | cons q ps2 =>
          simp only [joinSep]
          have h2 := ih
          rw [hps] at h2
          simp only [joinSep] at h2
          rw [List.cons_append, h2]

theorem pySplitChar_mem (sep : Char) : ∀ (l p : List Char),
    p ∈ pySplitChar sep l → ∀ c ∈ p, c ∈ l ∧ ¬ (c = sep) := by
  intro l
  induction l with
  | nil =>
    intro p hp c hc
    simp [pySplitChar] at hp
    subst hp
    simp at hc
  | cons a rest ih =>
    intro p hp c hc
    simp only [pySplitChar] at hp
    by_cases h : a = sep
    · rw [if_pos h] at hp
      rcases List.mem_cons.mp hp with h1 | h1
      · subst h1; simp at hc
      · obtain ⟨hm, hns⟩ := ih p h1 c hc
        exact ⟨List.mem_cons_of_mem a hm, hns⟩
    · rw [if_neg h] at hp
      cases hps : pySplitChar sep rest with
      | nil => exact absurd hps (pySplitChar_ne_nil sep rest)
      | cons q ps =>
        rw [hps] at hp
        rcases List.mem_cons.mp hp with h1 | h1
        · subst h1
          rcases List.mem_cons.mp hc with h2 | h2
          · subst h2
            exact ⟨List.mem_cons_self _ _, h⟩
          · have hq : q ∈ pySplitChar sep rest := by rw [hps]; exact List.mem_cons_self _ _
            obtain ⟨hm, hns⟩ := ih q hq c h2
            exact ⟨List.mem_cons_of_mem a hm, hns⟩
        · have hpm : p ∈ pySplitChar sep rest := by rw [hps]; exact List.mem_cons_of_mem q h1
          obtain ⟨hm, hns⟩ := ih p hpm c hc
          exact ⟨List.mem_cons_of_mem a hm, hns⟩

theorem contains_eq_false_of_not_mem {a : Char} {l : List Char} (h : a ∉ l) :
    l.contains a = false := by
  cases hc : l.contains a with
  | false => rfl
  | true =>
    exfalso
    obtain ⟨b, hb, hba⟩ := List.contains_iff_exists_mem_beq.mp hc
    rw [beq_iff_eq.mp hba] at h
    exact h hb

theorem countP_not_add (p : String → Bool) : ∀ l : List String,
    l.countP p + l.countP (fun a => ! p a) = l.length := by
  intro l
  induction l with
  | nil => rfl
  | cons a rest ih =>
    simp only [List.countP_cons, List.length_cons]
    by_cases h : p a = true <;> simp only [h] <;> simp <;> omega

theorem data_step_le (cfg : CleanConfig) (out : List String) (s : Stats)
    (line : String) : statsLe s (data_step cfg (out, s) line).2 := by
  unfold data_step
  by_cases hb : isBlankLine (pyRstripNl line) = true
  · simp only [hb, if_true]
    unfold statsLe
    simp only
    omega
  · simp only [hb, Bool.false_eq_true, if_false]
    have hle1 : statsLe s { s with total_rows := s.total_rows + 1 } := by
      unfold statsLe
      simp only
      omega
    have hle2 := (clean_row_frame cfg (pyRstripNl line)
      { s with total_rows := s.total_rows + 1 }).2.2.2
    split
    · refine statsLe_trans (statsLe_trans hle1 hle2) ?_
      unfold statsLe
      simp only
      omega
    · refine statsLe_trans (statsLe_trans hle1 hle2) ?_
      unfold statsLe
      simp only
      omega

theorem data_fold_le (cfg : CleanConfig) (t : List String) :
    ∀ (out : List String) (s : Stats),
    statsLe s (t.foldl (data_step cfg) (out, s)).2 := by
  induction t with
  | nil => intro out s; exact statsLe_refl s
  | cons line rest ih =>
    intro out s
    rw [List.foldl_cons]
    have h2 := ih (data_step cfg (out, s) line).1 (data_step cfg (out, s) line).2
    rw [Prod.mk.eta] at h2
    exact statsLe_trans (data_step_le cfg out s line) h2

/-- The canonical-header condition: when the header contains none of the
characters that force the csv writer to quote, joining the raw split back
with the delimiter reproduces the header exactly. -/
theorem writeRow_split_id (d : Char) (l : List Char)
    (h0 : l ≠ [])
    (hq : ∀ c ∈ l, ¬ (c = '"' ∨ c = '\u000d' ∨ c = '\n')) :
    pyCsvWriteRow d ((pySplitChar d l).map String.mk) = String.mk l := by
  have hsingle : ∀ q, pySplitChar d l = [q] → q ≠ [] := by
    intro q hps hq0
    apply h0
    have hj := joinSep_pySplitChar d l
    rw [hps, hq0] at hj
    simpa [joinSep] using hj.symm
  have hpieces : ∀ p ∈ pySplitChar d l,
      writeField d (((pySplitChar d l).map String.mk).length == 1)
        (String.mk p).toList = p := by
    intro p hp
    have htl : (String.mk p).toList = p := rfl
    rw [htl]
    unfold writeField
    have hnq : fieldNeedsQuote d p = false := by
      unfold fieldNeedsQuote
      have hd1 : p.contains d = false :=
        contains_eq_false_of_not_mem
          (fun hd => (pySplitChar_mem d l p hp d hd).2 rfl)
      have hd2 : p.contains '"' = false :=
        contains_eq_false_of_not_mem
          (fun hd => hq '"' (pySplitChar_mem d l p hp '"' hd).1 (Or.inl rfl))
      have hd3 : p.contains '\u000d' = false :=
        contains_eq_false_of_not_mem
          (fun hd => hq '\u000d' (pySplitChar_mem d l p hp '\u000d' hd).1
            (Or.inr (Or.inl rfl)))
      have hd4 : p.contains '\n' = false :=
        contains_eq_false_of_not_mem
          (fun hd => hq '\n' (pySplitChar_mem d l p hp '\n' hd).1
            (Or.inr (Or.inr rfl)))
      rw [hd1, hd2, hd3, hd4]
      rfl
    rw [hnq]
    by_cases hpe : p.isEmpty = true
    · have hp0 : p = [] := by
        cases p with
        | nil => rfl
        | cons x xs => simp [List.isEmpty] at hpe
      have hnotsingle : (((pySplitChar d l).map String.mk).length == 1) = false := by
        cases hps : pySplitChar d l with
        | nil => exact absurd hps (pySplitChar_ne_nil d l)
        | cons q ps =>
          cases ps with
          | nil =>
            exfalso
            have hpq : p = q := by
              rw [hps] at hp
              simpa using hp
            exact hsingle q hps (by rw [← hpq]; exact hp0)
          | cons q2 ps2 => simp
      rw [hnotsingle]
      simp
    · have hpe2 : p.isEmpty = false := by
        cases hval : p.isEmpty with
        | false => rfl
        | true => exact absurd hval hpe
      rw [hpe2]
      simp
  unfold pyCsvWriteRow
  rw [List.map_map]
  have hmap : List.map
      ((fun f => writeField d ((List.map String.mk (pySplitChar d l)).length == 1)
        f.toList) ∘ String.mk) (pySplitChar d l) = pySplitChar d l := by
    refine (List.map_congr_left ?_).trans (List.map_id _)
    intro p hp
    exact hpieces p hp
  rw [hmap, joinSep_pySplitChar]

theorem data_fold_head (cfg : CleanConfig) (t : List String) (a : String)
    (out : List String) (s : Stats) :
    ((t.foldl (data_step cfg) (a :: out, s)).1).head? = some a := by
  obtain ⟨ext, hext⟩ := data_fold_out cfg t (a :: out) s
  rw [hext]
  rfl

/-- Lines already in writer-canonical form with pipeline-fixed fields pass
through the data fold unchanged, in order. -/
theorem data_fold_id (cfg : CleanConfig) (t : List String) :
    (∀ l ∈ t, pyRstripNl l = l ∧ isBlankLine l = false ∧
      (pyCsvParse cfg.delimiter cfg.quotechar l.toList).map clean_field_str
        = pyCsvParse cfg.delimiter cfg.quotechar l.toList ∧
      pyCsvWriteRow cfg.delimiter (pyCsvParse cfg.delimiter cfg.quotechar l.toList)
        = l) →
    ∀ (out : List String) (s : Stats),
    (t.foldl (data_step cfg) (out, s)).1 = out ++ t := by
  induction t with
  | nil => intro _ out s; simp
  | cons line rest ih =>
    intro hd out s
    obtain ⟨ha, hb, hc, hw⟩ := hd line (List.mem_cons_self _ _)
    rw [List.foldl_cons]
    have hline0 : ¬ (line = "") := by
      intro he
      rw [he] at hb
      exact absurd hb (by decide)
    have h1 : (data_step cfg (out, s) line).1 = out ++ [line] := by
      unfold data_step
      rw [ha]
      simp only [hb, Bool.false_eq_true, if_false]
      obtain ⟨hs1, hs2⟩ := clean_row_ok cfg line
        { s with total_rows := s.total_rows + 1 }
      rw [clean_row_fst] at hs2 ⊢
      simp only [List.length_map] at hs2
      have hcond : (true && decide (0 < ((rowFields cfg line).map clean_field_str).length)) = true := by
        simp only [List.length_map]
        simp [rowFields_length_pos cfg line]
      simp only [hcond, if_true]
      have hrf : rowFields cfg line = pyCsvParse cfg.delimiter cfg.quotechar line.toList := by
        unfold rowFields
        rw [if_neg hline0]
      rw [hrf, hc, hw]
    have h2 := ih (fun l hl => hd l (List.mem_cons_of_mem _ hl))
      (data_step cfg (out, s) line).1 (data_step cfg (out, s) line).2
    rw [Prod.mk.eta] at h2
    rw [h2, h1, List.append_assoc]
    rfl

/-- C1 amended: for every input file, totalRows equals the number of
source lines and cleanedRows plus skippedRows equals totalRows, the
cleanedRows counter including one increment for the header line, so
originalDataRows minus skippedRows equals cleanedRows minus one rather
than cleanedRows; skippedRows equals the count of blank data lines plus
the count of data lines whose field parsing failed (the latter count
being zero in the embedding, where the naive-split fallback absorbs
parser errors). -/
theorem C1_row_count_law (cfg : CleanConfig) (lines : List String) :
    (process_file cfg lines).2.total_rows = lines.length ∧
    (process_file cfg lines).2.cleaned_rows + (process_file cfg lines).2.skipped_rows
      = (process_file cfg lines).2.total_rows ∧
    (process_file cfg lines).2.skipped_rows =
      (lines.drop 1).countP (fun l => isBlankLine (pyRstripNl l)) +
      (lines.drop 1).countP
        (fun l => !(isBlankLine (pyRstripNl l)) && row_parse_failed cfg l) := by
  have hfail : ∀ t : List String,
      t.countP (fun l => !(isBlankLine (pyRstripNl l)) && row_parse_failed cfg l) = 0 := by
    intro t
    rw [List.countP_eq_zero]
    intro a _
    rw [row_parse_failed_false cfg a]
    simp
  cases lines with
  | nil => simp [process_file, process_file_from, initStats]
  | cons h t =>
    unfold process_file process_file_from
    dsimp only
    refine ⟨?_, ?_, ?_⟩
    · rw [(data_fold_counts cfg t _ _).1]
      simp only [initStats, List.length_cons]
      omega
    · rw [(data_fold_counts cfg t _ _).1, (data_fold_counts cfg t _ _).2.1,
        (data_fold_counts cfg t _ _).2.2]
      have hpart := countP_not_add (fun l => isBlankLine (pyRstripNl l)) t
      simp only [initStats]
      omega
    · rw [(data_fold_counts cfg t _ _).2.2]
      simp only [List.drop_succ_cons, List.drop_zero, hfail t, initStats]
      omega

/-- Counterexample for C1 as stated: on a two-line file with one data row,
originalDataRows minus skippedRows is one but the cleanedRows counter is
two, because the header increments it as well. -/
theorem C1_cex :
    ((process_file ⟨';', '"'⟩ ["id;name", "1;x"]).2.total_rows - 1)
        - (process_file ⟨';', '"'⟩ ["id;name", "1;x"]).2.skipped_rows
      ≠ (process_file ⟨';', '"'⟩ ["id;name", "1;x"]).2.cleaned_rows := by decide

/-- C9: all six statistics counters start at zero when the cleaner is
constructed, and every cleaning operation as well as a whole
process_file run only ever increases them. -/
theorem C9_counters_monotone :
    initStats = ⟨0, 0, 0, 0, 0, 0⟩ ∧
    (∀ t s, statsLe s (normalize_unicode t s).2) ∧
    (∀ t s, statsLe s (clean_html_entities t s).2) ∧
    (∀ t s, statsLe s (normalize_whitespace t s).2) ∧
    (∀ cfg l s, statsLe s (clean_row cfg l s).2) ∧
    (∀ cfg lines s0, statsLe s0 (process_file_from cfg lines s0).2) := by
  refine ⟨rfl, fun t s => (normalize_unicode_frame t s).2.2.2,
    fun t s => (clean_html_entities_frame t s).2.2.2,
    fun t s => (normalize_whitespace_frame t s).2.2.2,
    fun cfg l s => (clean_row_frame cfg l s).2.2.2, ?_⟩
  intro cfg lines s0
  cases lines with
  | nil => exact statsLe_refl s0
  | cons h t =>
    unfold process_file_from
    dsimp only
    refine statsLe_trans ?_ (data_fold_le cfg t _ _)
    unfold statsLe
    simp only
    omega

/-- C2 amended: a second pass of process_file is byte-identical provided
the file is already fully normalized and in writer-canonical form: no
line carries trailing newline characters, the header equals the
minimal-quoting rendering of its raw delimiter split, and every data line
is non-blank and equals the minimal-quoting rendering (with the writer's
fixed double-quote character) of the fields the configured reader parses
from it, every such field being a fixed point of the per-field pipeline.
Field-level fixed points alone are not sufficient (see the
counterexample): a line with unnecessary quoting is rewritten even though
all its fields are fixed points. -/
theorem C2_second_pass_identity (cfg : CleanConfig) (h : String) (t : List String)
    (hh1 : pyRstripNl h = h)
    (hh2 : pyCsvWriteRow cfg.delimiter
      ((pySplitChar cfg.delimiter h.toList).map String.mk) = h)
    (hd : ∀ l ∈ t, pyRstripNl l = l ∧ isBlankLine l = false ∧
      (pyCsvParse cfg.delimiter cfg.quotechar l.toList).map clean_field_str
        = pyCsvParse cfg.delimiter cfg.quotechar l.toList ∧
      pyCsvWriteRow cfg.delimiter (pyCsvParse cfg.delimiter cfg.quotechar l.toList)
        = l) :
    (process_file cfg (h :: t)).1 = h :: t := by
  unfold process_file process_file_from
  dsimp only
  rw [hh1, hh2]
  rw [data_fold_id cfg t hd [h] _]
  rfl

/-- Witness for C2 amended at a concrete already-normalized two-line
file. -/
theorem C2_second_pass_identity_witness :
    (process_file ⟨';', '"'⟩ ["a;b", "1;2"]).1 = ["a;b", "1;2"] :=
  C2_second_pass_identity ⟨';', '"'⟩ "a;b" ["1;2"] (by decide) (by decide)
    (by decide)

/-- Counterexample for C2 as stated: a file whose fields are all fixed
points of the per-field pipeline but whose data line carries unnecessary
quoting is not reproduced byte-identically by a second pass. -/
theorem C2_cex :
    ((pyCsvParse ';' '"' "a;\"b\"".toList).map clean_field_str
        = pyCsvParse ';' '"' "a;\"b\"".toList) ∧
    clean_field_str "h" = "h" ∧
    (process_file ⟨';', '"'⟩ ["h", "a;\"b\""]).1 ≠ ["h", "a;\"b\""] := by decide

/-- C6 amended: the header line is split on the raw delimiter without
normalization and re-written by the csv writer; the output header is
textually identical to the source header whenever the header is nonempty
and contains no character forcing the writer to quote (the double quote
or a line-terminator character). -/
theorem C6_header_preserved (cfg : CleanConfig) (h : String) (t : List String)
    (h0 : ¬ (h = ""))
    (h1 : pyRstripNl h = h)
    (h2 : ∀ c ∈ h.toList, ¬ (c = '"' ∨ c = '\u000d' ∨ c = '\n')) :
    (process_file cfg (h :: t)).1.head? = some h := by
  unfold process_file process_file_from
  dsimp only
  rw [h1]
  rw [writeRow_split_id cfg.delimiter h.toList
    (fun hn => h0 (by cases h with | mk d => simp at hn; rw [hn])) h2]
  have hmk : String.mk h.toList = h := by cases h; rfl
  rw [hmk, data_fold_head]

/-- Witness for C6 amended at a concrete quote-free header. -/
theorem C6_header_preserved_witness :
    (process_file ⟨';', '\''⟩ ["name;age", "bob;3"]).1.head? = some "name;age" :=
  C6_header_preserved ⟨';', '\''⟩ "name;age" ["bob;3"] (by decide) (by decide)
    (by decide)

/-- Counterexample for C6 as stated: a header field containing a double
quote is re-quoted by the writer, so the output header differs from the
source header. -/
theorem C6_cex :
    (process_file ⟨';', '"'⟩ ["a\"b;c", "1;2"]).1.head? ≠ some "a\"b;c" ∧
    (process_file ⟨';', '"'⟩ ["a\"b;c", "1;2"]).1.head? = some "\"a\"\"b\";c" := by
  decide

theorem csvSplitAux_ne_nil (d q : Char) :
    ∀ (l : List Char) (st : PState) (acc : List Char),
    ¬ (l = [] ∧ acc = []) → csvSplitAux d q l st acc ≠ [] := by
  intro l
  induction l with
  | nil =>
    intro st acc h
    simp only [csvSplitAux]
    have hacc : ¬ (acc = []) := fun ha => h ⟨rfl, ha⟩
    have : acc.isEmpty = false := by
      cases acc with
      | nil => exact absurd rfl hacc
      | cons a r => rfl
    rw [this]
    simp
  | cons c rest ih =>
    intro st acc _
    simp only [csvSplitAux]
    split
    · simp
    · exact ih (pstep d q st c) (c :: acc) (fun hh => by cases hh.2)

theorem csvRecords_nil_iff (d q : Char) (content : List Char) :
    csvRecords d q content = [] ↔ content = [] := by
  constructor
  · intro h
    by_contra hc
    have h2 : csvSplitRecords d q content ≠ [] :=
      csvSplitAux_ne_nil d q content PState.startField []
        (fun hh => hc hh.1)
    unfold csvRecords at h
    exact h2 (List.map_eq_nil_iff.mp h)
  · intro h
    subst h
    rfl

/-- C3 amended: get_config either returns a complete configuration or
fails in exactly these ways: an IOError when the file cannot be opened
(left to the filesystem, outside the byte-level model); a DecodeError
exactly when the content is not UTF-8-decodable — every reader sub-step
after encoding inference hardcodes utf-8, so this happens even when
another candidate encoding would decode the file (latin-1 decodes any
byte string); or StopIteration exactly when the decoded file is empty
(the csv reader of detect_column_count has nothing to yield).  The
encoding-inference sub-step itself never raises: it returns utf-8 when
the content is UTF-8 and otherwise latin-1, never reaching the utf-8
fallback. -/
theorem C3_get_config_failure_modes (bs : List Nat) :
    ((∃ c, get_config bs = Except.ok c)
      ∨ (get_config bs = Except.error PyErr.decodeError ∧ utf8Decode bs = none)
      ∨ (get_config bs = Except.error PyErr.stopIteration ∧ utf8Decode bs = some [])) ∧
    detect_encoding bs = (if (utf8Decode bs).isSome then "utf-8" else "latin-1") := by
  constructor
  · unfold get_config
    cases hu : utf8Decode bs with
    | none => exact Or.inr (Or.inl ⟨rfl, rfl⟩)
    | some content =>
      dsimp only
      cases hr : csvRecords (detect_delimiter content) (detect_quotechar content)
          content with
      | nil =>
        refine Or.inr (Or.inr ⟨rfl, ?_⟩)
        rw [(csvRecords_nil_iff _ _ _).mp hr]
      | cons hd tl =>
        exact Or.inl ⟨_, rfl⟩
  · unfold detect_encoding encodingCandidates
    cases hu : utf8Decode bs with
    | some c =>
      have h1 : pyDecode "utf-8" bs = utf8Decode bs := rfl
      simp [List.find?, pyDecode, hu]
    | none =>
      have h1 : pyDecode "utf-8" bs = utf8Decode bs := rfl
      have h2 : pyDecode "latin-1" bs = latin1Decode bs := rfl
      simp [List.find?, pyDecode, hu, latin1Decode]

/-- Counterexample for C3 as stated: the byte 255 is not UTF-8, yet
latin-1 (a candidate) decodes it, so by the claim get_config should
return a configuration; instead it fails with a decode error raised by
the hardcoded utf-8 read of detect_delimiter. -/
theorem C3_cex :
    get_config [255] = Except.error PyErr.decodeError ∧
    (pyDecode "latin-1" [255]).isSome = true ∧
    detect_encoding [255] = "latin-1" := by decide

/-- C8: integrity validation computes the absolute difference between the
original total line count minus one and the cleaned data-record count,
and sets dataPreserved to true exactly when that difference is at most
five. -/
theorem C8_integrity_tolerance (cfg : CleanConfig) (orig cleaned : List Char) :
    (validate_data_integrity cfg orig cleaned).row_difference =
      (((validate_data_integrity cfg orig cleaned).original_rows -
        (validate_data_integrity cfg orig cleaned).cleaned_rows).natAbs : Int) ∧
    (validate_data_integrity cfg orig cleaned).original_rows =
      ((pyLines orig).length : Int) - 1 ∧
    ((validate_data_integrity cfg orig cleaned).data_preserved = true ↔
      (validate_data_integrity cfg orig cleaned).row_difference ≤ 5) := by
  unfold validate_data_integrity
  refine ⟨rfl, rfl, ?_⟩
  simp

/-- C10: when detection succeeds with needsCleaning false and no force
flag is given, cleaning is skipped without creating the fixed-name
cleaned file; validation then finds no cleaned file, runs no check,
writes no validation report and returns success, and the whole pipeline
run reports success. -/
theorem C10_validate_skip (bs : List Nat) (fs0 : PipelineFS)
    (hok : config_ok_no_cleaning bs = true)
    (h3 : fs0.cleaned_exists = false)
    (h4 : fs0.validation_report = false) :
    (pipeline_execute bs false fs0).1 = true ∧
    (pipeline_execute bs false fs0).2.validation_report = false ∧
    (pipeline_execute bs false fs0).2.cleaned_exists = false ∧
    (validate_dataset { fs0 with analysis_report := true }).2.2 = false := by
  unfold config_ok_no_cleaning at hok
  unfold pipeline_execute
  cases hc : get_config bs with
  | error e =>
    rw [hc] at hok
    simp at hok
  | ok cfg =>
    rw [hc] at hok
    simp only [Bool.not_eq_true'] at hok
    unfold clean_dataset validate_dataset
    simp [hok, h3, h4]

/-- Witness for C10 at a concrete clean two-line semicolon file in a
fresh output directory. -/
theorem C10_validate_skip_witness :
    (pipeline_execute [97, 59, 98, 10, 49, 59, 50, 10] false
      ⟨false, false, false, false⟩).1 = true ∧
    (pipeline_execute [97, 59, 98, 10, 49, 59, 50, 10] false
      ⟨false, false, false, false⟩).2.validation_report = false ∧
    (pipeline_execute [97, 59, 98, 10, 49, 59, 50, 10] false
      ⟨false, false, false, false⟩).2.cleaned_exists = false ∧
    (validate_dataset { (⟨false, false, false, false⟩ : PipelineFS) with
      analysis_report := true }).2.2 = false :=
  C10_validate_skip [97, 59, 98, 10, 49, 59, 50, 10]
    ⟨false, false, false, false⟩ (by decide) rfl rfl

/-- C7: delimiter inference counts each candidate of the fixed set
semicolon, comma, tab, pipe in the first line and returns the candidate
with the highest count, first candidate winning ties; hence a file whose
first line uses exactly one supported delimiter and contains no other
candidate character has that delimiter recovered exactly. -/
theorem C7_delimiter_recovery (content : List Char) (d : Char)
    (hd : d ∈ delimiters)
    (h1 : 1 ≤ (firstLine content).count d)
    (h0 : ∀ e ∈ delimiters, e ≠ d → (firstLine content).count e = 0) :
    detect_delimiter content = d := by
  have hpos : 0 < (firstLine content).count d := h1
  fin_cases hd
  · have h2 := h0 ',' (by decide) (by decide)
    have h3 := h0 '\t' (by decide) (by decide)
    have h4 := h0 '|' (by decide) (by decide)
    simp [detect_delimiter, delimiters, h2, h3, h4]
  · have h2 := h0 ';' (by decide) (by decide)
    have h3 := h0 '\t' (by decide) (by decide)
    have h4 := h0 '|' (by decide) (by decide)
    simp [detect_delimiter, delimiters, h2, h3, h4, hpos]
  · have h2 := h0 ';' (by decide) (by decide)
    have h3 := h0 ',' (by decide) (by decide)
    have h4 := h0 '|' (by decide) (by decide)
    simp [detect_delimiter, delimiters, h2, h3, h4, hpos]
  · have h2 := h0 ';' (by decide) (by decide)
    have h3 := h0 ',' (by decide) (by decide)
    have h4 := h0 '\t' (by decide) (by decide)
    simp [detect_delimiter, delimiters, h2, h3, h4, hpos]

/-- Witness for C7 at a concrete pipe-delimited first line. -/
theorem C7_delimiter_recovery_witness : detect_delimiter "a|b|c".toList = '|' :=
  C7_delimiter_recovery "a|b|c".toList '|' (by decide) (by decide) (by decide)

/-- C4 amended: quote-character inference compares the counts of double
and single quotes in the first 10000 characters and selects the double
quote if and only if double quotes strictly outnumber single quotes; in
particular, when the two counts are equal the single quote is selected. -/
theorem C4_quotechar_rule (content : List Char) :
    (detect_quotechar content = '"' ↔
      (content.take 10000).count '\'' < (content.take 10000).count '"')
    ∧ ((content.take 10000).count '"' = (content.take 10000).count '\'' →
      detect_quotechar content = '\'') := by
  by_cases hlt :
      (content.take 10000).count '\'' < (content.take 10000).count '"'
  · refine ⟨?_, ?_⟩
    · simp [detect_quotechar, hlt]
    · intro h
      omega
  · refine ⟨?_, ?_⟩
    · simp [detect_quotechar, hlt]
    · intro _
      simp [detect_quotechar, hlt]

/-- Witness for C4 amended: a sample with equal quote counts selects the
single quote. -/
theorem C4_quotechar_rule_witness :
    ("xy".toList.take 10000).count '"' = ("xy".toList.take 10000).count '\'' ∧
    detect_quotechar "xy".toList = '\'' :=
  ⟨by decide, (C4_quotechar_rule "xy".toList).2 (by decide)⟩

/-- Counterexample for C4 as stated: on input with equally many double and
single quotes (here zero each), the code selects the single quote, not the
double quote claimed. -/
theorem C4_quotechar_cex :
    ("ab".toList.take 10000).count '"' = ("ab".toList.take 10000).count '\'' ∧
    detect_quotechar "ab".toList ≠ '"' := by decide

/-- C5 amended: the whitespace-collapse step increments the
whitespaceNormalized counter by exactly one for every nonempty field,
even when the text is unchanged; an empty-string field returns
immediately, unchanged and without incrementing. -/
theorem C5_whitespace_counter (text : String) (s : Stats) :
    (normalize_whitespace text s).2.whitespace_normalized =
      s.whitespace_normalized + (if text = "" then 0 else 1) ∧
    normalize_whitespace "" s = ("", s) := by
  refine ⟨?_, by simp [normalize_whitespace]⟩
  by_cases h : text = "" <;> simp [normalize_whitespace, h]

/-- Counterexample for C5 as stated: on the empty-string field the counter
is not incremented. -/
theorem C5_whitespace_cex :
    (normalize_whitespace "" initStats).2.whitespace_normalized ≠
      initStats.whitespace_normalized + 1 := by decide

end CsvClean
